import Mathlib

/-!
Verification development for the motorcycle-cv frame-analysis gateway.

This file gives a shallow embedding, in Lean, of the parts of the Go
server that the specification's claims are about, and proves (or refutes)
those claims against the embedding.

Modelling conventions, used uniformly below:
- Go machine integers (`int`, `int64`) are modelled as `Int`; the values
  involved in every claim stay far away from 64-bit overflow, which is
  therefore not modelled.
- `float64` fields that the claims never compute with (confidences,
  coordinates, processing times) are modelled as `ℚ`.
- Wall-clock time is an explicit `now` parameter: `Nat` seconds for the
  cache/processor layer and `Nat` nanoseconds for the rate limiter.
  Go's `time.Time.After` is strict `>`, `time.Time.Sub` of a monotonic
  clock is `Nat` subtraction.
- Go's `interface{}` values stored in the cache are modelled by the tagged
  type `CacheValue`; the dynamic type test `dest.(*interface{})` in
  `Cache.Get` is modelled by the `Dest` type below.
- Goroutines that only write to the cache (`go fp.cache.Set(...)` and the
  `go ... SetWithTTL ...` inside `isSimilarFrame`) are applied immediately,
  i.e. the model picks the schedule in which every asynchronous cache write
  lands before the next observable step.  This is the schedule most
  favourable to the specification's caching claims.
- The MD5 digest used for cache keys is modelled as an injective
  serialization of its input.  Every claim settled here uses only that
  equal inputs produce equal digests (the spec itself directs callers to
  treat digest collisions as cache hits), never any property of the MD5
  compression function.
-/

namespace MCV

/-! ### Data model (`server/models`) -/

/-- One point of a polyline in an annotation (`models.Point`). -/
structure Point where
  x : ℚ
  y : ℚ
deriving DecidableEq

/-- A drawable annotation attached to a result (`models.Annotation`). -/
structure Annotation where
  type : String
  x : ℚ
  y : ℚ
  width : ℚ
  height : ℚ
  points : List Point
  label : String
  confidence : ℚ
  color : String
deriving DecidableEq

/-- A feedback item (`models.Feedback`). -/
structure Feedback where
  type : String
  message : String
  score : Int
  category : String
  priority : Int
deriving DecidableEq

/-- Values of the free-form `map[string]interface{}` metadata attached to a
result; the inference client stores strings, ints and floats there. -/
inductive MetaValue where
  | str (s : String)
  | int (n : Int)
  | num (q : ℚ)
deriving DecidableEq

/-- The per-frame analysis record (`models.AnalysisResult`).  Go `nil`
slices and maps are modelled as empty lists. -/
structure AnalysisResult where
  overallScore : Int
  postureScore : Int
  laneScore : Int
  speedScore : Int
  annotations : List Annotation
  feedback : List Feedback
  metadata : List (String × MetaValue)
  processingTime : ℚ
  modelVersion : String
  timestamp : Int
deriving DecidableEq

/-- The Go zero value `var r models.AnalysisResult`. -/
def zeroAnalysisResult : AnalysisResult :=
  { overallScore := 0, postureScore := 0, laneScore := 0, speedScore := 0
    annotations := [], feedback := [], metadata := []
    processingTime := 0, modelVersion := "", timestamp := 0 }

/-- A frame submitted for analysis (`models.FrameRequest`); image bytes are
modelled as `List Nat` with every element `< 256`. -/
structure FrameRequest where
  imageData : List Nat
  timestamp : Int
  clientID : String
deriving DecidableEq

/-! ### Cache (`server/cache`, `MemoryCache`)

`NewRedisCache` in this repository also returns a purely in-memory
implementation whose `Get`, `Increment` and `Close` have the same shape as
`MemoryCache`'s, so `MemoryCache` is the embedding for both. -/

/-- Tagged model of the `interface{}` values this program stores in the
cache: `int64` counters, the `true` marker of the similarity key, and
whole analysis results. -/
inductive CacheValue where
  | int (n : Int)
  | bool (b : Bool)
  | result (r : AnalysisResult)
deriving DecidableEq

/-- A cache entry (`cache.CacheItem`).  Times are `Nat` seconds. -/
structure CacheItem where
  value : CacheValue
  expiresAt : Nat
  lastUsed : Nat
  accessCount : Int
deriving DecidableEq

/-- The in-memory cache (`cache.MemoryCache`).  The Go map is modelled as
an association list with at most one entry per key; `stopChClosed` records
whether `Close` has already closed the `stopCh` channel. -/
structure MemoryCache where
  items : List (String × CacheItem)
  maxSize : Nat
  ttl : Nat
  stopChClosed : Bool
deriving DecidableEq

/-- Map lookup `c.items[key]`. -/
def lookupItem (items : List (String × CacheItem)) (key : String) : Option CacheItem :=
  (items.find? (fun p => p.1 == key)).map Prod.snd

/-- Map store `c.items[key] = item` (replaces an existing binding). -/
def setItem (items : List (String × CacheItem)) (key : String) (it : CacheItem) :
    List (String × CacheItem) :=
  if items.any (fun p => p.1 == key) then
    items.map (fun p => if p.1 == key then (key, it) else p)
  else
    items ++ [(key, it)]

/-- Map delete `delete(c.items, key)`. -/
def eraseItem (items : List (String × CacheItem)) (key : String) :
    List (String × CacheItem) :=
  items.filter (fun p => ¬ p.1 == key)

/-- `MemoryCache.evictLRU`: delete the single entry with the strictly
oldest `LastUsed`.  Go iterates the map in unspecified order, breaking
`LastUsed` ties arbitrarily; the model breaks ties by list position. -/
def evictLRU (items : List (String × CacheItem)) : List (String × CacheItem) :=
  let oldest := items.foldl
    (fun acc p => match acc with
      | none => some p
      | some q => if p.2.lastUsed < q.2.lastUsed then some p else some q)
    none
  match oldest with
  | none => items
  | some q => eraseItem items q.1

/-- The only error the cache ever returns (`cache.ErrCacheMiss`); notably
there is no closed-cache error anywhere in the source. -/
inductive CacheError where
  | cacheMiss
deriving DecidableEq

/-- The `dest interface{}` argument of `Cache.Get`: either a `*interface{}`
(whose pointee the hit path overwrites) or some other pointer type such as
the `*models.AnalysisResult` the frame processor passes, carrying its
current pointee. -/
inductive Dest where
  | interfacePtr (contents : Option CacheValue)
  | resultPtr (contents : AnalysisResult)
deriving DecidableEq

/-- `MemoryCache.Set`: evict when full, then store with the default TTL.
The Go code checks `len(c.items) >= c.maxSize` before looking at the key,
so overwriting an existing key in a full cache still evicts. -/
def MemoryCache.set (c : MemoryCache) (key : String) (v : CacheValue) (now : Nat) :
    MemoryCache :=
  let items := if c.items.length ≥ c.maxSize then evictLRU c.items else c.items
  { c with items := setItem items key ⟨v, now + c.ttl, now, 1⟩ }

/-- `MemoryCache.SetWithTTL`. -/
def MemoryCache.setWithTTL (c : MemoryCache) (key : String) (v : CacheValue)
    (ttl now : Nat) : MemoryCache :=
  let items := if c.items.length ≥ c.maxSize then evictLRU c.items else c.items
  { c with items := setItem items key ⟨v, now + ttl, now, 1⟩ }

/-- `MemoryCache.Get`: miss on absent keys, delete-and-miss on expired
keys; on a hit, promote `LastUsed`/`AccessCount` and write the stored
value through `dest` only when `dest` is a `*interface{}`. -/
def MemoryCache.get (c : MemoryCache) (key : String) (dest : Dest) (now : Nat) :
    Except CacheError Unit × MemoryCache × Dest :=
  match lookupItem c.items key with
  | none => (.error .cacheMiss, c, dest)
  | some item =>
    if now > item.expiresAt then
      (.error .cacheMiss, { c with items := eraseItem c.items key }, dest)
    else
      let item' := { item with lastUsed := now, accessCount := item.accessCount + 1 }
      let dest' := match dest with
        | .interfacePtr _ => .interfacePtr (some item.value)
        | d => d
      (.ok (), { c with items := setItem c.items key item' }, dest')

/-- `MemoryCache.Delete` (always returns nil error). -/
def MemoryCache.delete (c : MemoryCache) (key : String) : MemoryCache :=
  { c with items := eraseItem c.items key }

/-- `MemoryCache.Exists`. -/
def MemoryCache.existsKey (c : MemoryCache) (key : String) (now : Nat) : Bool :=
  match lookupItem c.items key with
  | none => false
  | some item => if now > item.expiresAt then false else true

/-- `MemoryCache.GetTTL`. -/
def MemoryCache.getTTL (c : MemoryCache) (key : String) (now : Nat) :
    Except CacheError Nat :=
  match lookupItem c.items key with
  | none => .error .cacheMiss
  | some item =>
    if now > item.expiresAt then .error .cacheMiss
    else .ok (item.expiresAt - now)

/-- `MemoryCache.Increment`: missing or expired entries restart at 1 with
the default TTL; a live integer entry is incremented in place without
touching `ExpiresAt`; a live non-integer entry is reset to 1, also without
touching `ExpiresAt`. -/
def MemoryCache.increment (c : MemoryCache) (key : String) (now : Nat) :
    Int × MemoryCache :=
  match lookupItem c.items key with
  | none =>
    (1, { c with items := setItem c.items key ⟨.int 1, now + c.ttl, now, 1⟩ })
  | some item =>
    if now > item.expiresAt then
      let item' := { item with value := CacheValue.int 1, expiresAt := now + c.ttl, lastUsed := now, accessCount := 1 }
      (1, { c with items := setItem c.items key item' })
    else
      match item.value with
      | .int count =>
        let item' := { item with value := CacheValue.int (count + 1), lastUsed := now, accessCount := item.accessCount + 1 }
        (count + 1, { c with items := setItem c.items key item' })
      | _ =>
        let item' := { item with value := CacheValue.int 1, lastUsed := now, accessCount := item.accessCount + 1 }
        (1, { c with items := setItem c.items key item' })

/-- `MemoryCache.IncrementWithTTL`: unlike `Increment`, it never checks
expiry — any present entry with an integer value is incremented — and it
always resets `ExpiresAt` to `now + ttl`. -/
def MemoryCache.incrementWithTTL (c : MemoryCache) (key : String) (ttl now : Nat) :
    Int × MemoryCache :=
  match lookupItem c.items key with
  | none =>
    (1, { c with items := setItem c.items key ⟨.int 1, now + ttl, now, 1⟩ })
  | some item =>
    let newVal : Int := match item.value with
      | .int count => count + 1
      | _ => 1
    let item' := { item with value := CacheValue.int newVal, expiresAt := now + ttl, lastUsed := now, accessCount := item.accessCount + 1 }
    (newVal, { c with items := setItem c.items key item' })

/-- `MemoryCache.Close`: stops the cleanup ticker and executes
`close(c.stopCh)`.  In Go, `close` of an already-closed channel panics;
the model returns `none` for that panic.  No closed flag is consulted by
any other cache operation. -/
def MemoryCache.close (c : MemoryCache) : Option MemoryCache :=
  if c.stopChClosed then none
  else some { c with stopChClosed := true }

/-! ### Inference client (`server/ml`, `Client`) -/

/-- `ml.ClientConfig`; durations in seconds. -/
structure ClientConfig where
  timeout : Nat
  maxRetries : Nat
  retryDelay : Nat
  healthCheckInterval : Nat
deriving DecidableEq

/-- The defaults installed by `ml.NewClient`. -/
def defaultClientConfig : ClientConfig :=
  { timeout := 30, maxRetries := 3, retryDelay := 1, healthCheckInterval := 30 }

/-- `ml.BBox`. -/
structure BBox where
  x : ℚ
  y : ℚ
  width : ℚ
  height : ℚ
deriving DecidableEq

/-- `ml.ObjectDetection` (`class` is a Lean keyword, hence `objClass`). -/
structure ObjectDetection where
  objClass : String
  confidence : ℚ
  boundingBox : BBox
  trackID : Int
deriving DecidableEq

/-- `ml.PoseKeypoint`. -/
structure PoseKeypoint where
  name : String
  x : ℚ
  y : ℚ
  confidence : ℚ
  visible : Bool
deriving DecidableEq

/-- `ml.SceneAnalysisResult`. -/
structure SceneAnalysisResult where
  roadType : String
  laneCount : Int
  weatherCondition : String
  timeOfDay : String
  trafficDensity : String
  roadCondition : String
  speedLimit : Int
  visibility : ℚ
deriving DecidableEq

/-- `ml.AnalysisResponse`, the decoded JSON body of a 200 reply. -/
structure AnalysisResponse where
  overallScore : Int
  postureScore : Int
  laneScore : Int
  speedScore : Int
  detections : List ObjectDetection
  poseKeypoints : List PoseKeypoint
  sceneAnalysis : SceneAnalysisResult
  processingTime : ℚ
  modelVersion : String
deriving DecidableEq

/-- `Client.convertMLResponse`: scores are copied through verbatim (no
clamping), detections become `bounding_box` annotations, keypoints with
`Visible && Confidence > 0.5` become 5×5 `keypoint` annotations, and the
scene fields land in the metadata map. -/
def convertMLResponse (mlResp : AnalysisResponse) (now : Int) : AnalysisResult :=
  let detAnns := mlResp.detections.map (fun d =>
    ({ type := "bounding_box", x := d.boundingBox.x, y := d.boundingBox.y
       width := d.boundingBox.width, height := d.boundingBox.height
       points := [], label := d.objClass, confidence := d.confidence
       color := "" } : Annotation))
  let kpAnns := (mlResp.poseKeypoints.filter
      (fun k => k.visible && decide (k.confidence > 1/2))).map (fun k =>
    ({ type := "keypoint", x := k.x, y := k.y, width := 5, height := 5
       points := [], label := k.name, confidence := k.confidence
       color := "" } : Annotation))
  { overallScore := mlResp.overallScore
    postureScore := mlResp.postureScore
    laneScore := mlResp.laneScore
    speedScore := mlResp.speedScore
    annotations := detAnns ++ kpAnns
    feedback := []
    metadata :=
      [("road_type", .str mlResp.sceneAnalysis.roadType),
       ("lane_count", .int mlResp.sceneAnalysis.laneCount),
       ("weather_condition", .str mlResp.sceneAnalysis.weatherCondition),
       ("time_of_day", .str mlResp.sceneAnalysis.timeOfDay),
       ("traffic_density", .str mlResp.sceneAnalysis.trafficDensity),
       ("road_condition", .str mlResp.sceneAnalysis.roadCondition),
       ("speed_limit", .int mlResp.sceneAnalysis.speedLimit),
       ("visibility", .num mlResp.sceneAnalysis.visibility)]
    processingTime := mlResp.processingTime
    modelVersion := mlResp.modelVersion
    timestamp := now }

/-- The response body of one `/analyze` attempt: either it decodes to an
`AnalysisResponse` or it is malformed. -/
inductive Payload where
  | valid (resp : AnalysisResponse)
  | malformed
deriving DecidableEq

/-- What the network returns for one HTTP attempt. -/
inductive AttemptOutcome where
  | transportError
  | httpResponse (status : Nat) (payload : Payload)
deriving DecidableEq

/-- The errors `Client.executeAnalysisRequest` can return. -/
inductive RequestError where
  | httpRequestFailed
  | serviceError (status : Nat)
  | decodeFailed
deriving DecidableEq

/-- `Client.executeAnalysisRequest` for one attempt whose network outcome
is `outcome`: transport failures, non-200 statuses and undecodable bodies
are all returned as errors of the same Go `error` type. -/
def executeAnalysisRequest (outcome : AttemptOutcome) (now : Int) :
    Except RequestError AnalysisResult :=
  match outcome with
  | .transportError => .error .httpRequestFailed
  | .httpResponse status payload =>
    if status ≠ 200 then .error (.serviceError status)
    else
      match payload with
      | .malformed => .error .decodeFailed
      | .valid resp => .ok (convertMLResponse resp now)

/-- The wrapped error `"ML analysis failed after %d attempts: %w"` that
`Client.AnalyzeFrame` returns when every attempt failed. -/
inductive AnalyzeError where
  | failedAfter (maxRetries : Nat) (last : RequestError)
deriving DecidableEq

/-- The retry loop of `Client.AnalyzeFrame`.  `attempt` is the current
attempt index, `remaining` the number of further attempts allowed after
this one (so the loop body runs `remaining + 1` more times at most).
Besides the final result it returns the number of HTTP calls made and the
list of back-off sleeps taken (in `RetryDelay` units), in order. -/
def analyzeFrameAux (oracle : Nat → AttemptOutcome) (delay : Nat) (now : Int) :
    Nat → Nat → Except RequestError AnalysisResult × Nat × List Nat
  | attempt, remaining =>
    let sleeps := if attempt > 0 then [delay * attempt] else []
    match executeAnalysisRequest (oracle attempt) now with
    | .ok r => (.ok r, 1, sleeps)
    | .error e =>
      match remaining with
      | 0 => (.error e, 1, sleeps)
      | remaining' + 1 =>
        let rest := analyzeFrameAux oracle delay now (attempt + 1) remaining'
        (rest.1, rest.2.1 + 1, sleeps ++ rest.2.2)

/-- `Client.AnalyzeFrame`: run attempts `0 .. MaxRetries`, sleeping
`RetryDelay × attempt` before each retry, returning the first success or a
wrapped error after the last failure.  The `oracle` gives the network's
outcome for each attempt. -/
def AnalyzeFrame (oracle : Nat → AttemptOutcome) (cfg : ClientConfig) (now : Int) :
    Except AnalyzeError AnalysisResult × Nat × List Nat :=
  let out := analyzeFrameAux oracle cfg.retryDelay now 0 cfg.maxRetries
  (match out.1 with
   | .ok r => .ok r
   | .error e => .error (.failedAfter cfg.maxRetries e), out.2)

/-! ### Frame processor (`server/processor`, `FrameProcessor`) -/

/-- `processor.ProcessorConfig`. -/
structure ProcessorConfig where
  maxQueueSize : Nat
  maxWorkers : Nat
  processingTimeout : Nat
  skipSimilarFrames : Bool
  similarityThreshold : ℚ
deriving DecidableEq

/-- The defaults installed by `NewFrameProcessor`. -/
def defaultProcessorConfig : ProcessorConfig :=
  { maxQueueSize := 100, maxWorkers := 4, processingTimeout := 30
    skipSimilarFrames := true, similarityThreshold := 95/100 }

/-- The counters of `processor.ProcessorStats` that `ProcessFrame`
touches (the EWMA latency field is not needed by any claim and is left
out of the embedding). -/
structure ProcessorStats where
  totalProcessed : Int
  successfullyProcessed : Int
  failedProcessed : Int
deriving DecidableEq

/-- The processor state threaded through `ProcessFrame`. -/
structure FrameProcessorState where
  cache : MemoryCache
  stats : ProcessorStats
  config : ProcessorConfig
deriving DecidableEq

/-- Model of the MD5 hex digest in `FrameProcessor.generateFrameHash`:
an injective serialization of the image bytes (see the header note on
digest modelling). -/
def generateFrameHash (imageData : List Nat) : String :=
  toString imageData

/-- Model of `cache.GenerateCacheKey`, which hashes the concatenation of
its string components; the digest itself is again modelled as the
identity on the concatenation. -/
def GenerateCacheKey (components : List String) : String :=
  String.join components

/-- `FrameProcessor.generateFeedback`: the five deterministic rules, in
source order; the two posture rules are an if/else-if chain. -/
def generateFeedback (analysis : AnalysisResult) : List Feedback :=
  let fbPosture : List Feedback :=
    if analysis.postureScore < 70 then
      [{ type := "warning"
         message := "Improve your riding posture - keep your back straight and relax your shoulders"
         score := analysis.postureScore, category := "", priority := 0 }]
    else if analysis.postureScore > 85 then
      [{ type := "success", message := "Excellent riding posture!"
         score := analysis.postureScore, category := "", priority := 0 }]
    else []
  let fbLane : List Feedback :=
    if analysis.laneScore < 60 then
      [{ type := "error"
         message := "Maintain better lane position - you\x27re drifting"
         score := analysis.laneScore, category := "", priority := 0 }]
    else []
  let fbSpeed : List Feedback :=
    if analysis.speedScore < 65 then
      [{ type := "warning"
         message := "Adjust your speed for current road conditions"
         score := analysis.speedScore, category := "", priority := 0 }]
    else []
  let fbOverall : List Feedback :=
    if analysis.overallScore > 80 then
      [{ type := "success", message := "Great riding! Keep up the good work"
         score := analysis.overallScore, category := "", priority := 0 }]
    else []
  fbPosture ++ fbLane ++ fbSpeed ++ fbOverall

/-- The feedback rules exactly as the specification words them (§4.4):
five independent rules evaluated in the stated order, each contributing
one item carrying the corresponding score, as a function of the four
scores alone.  Written from the spec, for comparison with
`generateFeedback`, which is written from the source. -/
def specRuleFeedback (overall posture lane speed : Int) : List Feedback :=
  (if posture < 70 then
    [{ type := "warning"
       message := "Improve your riding posture - keep your back straight and relax your shoulders"
       score := posture, category := "", priority := 0 }] else []) ++
  (if posture > 85 then
    [{ type := "success", message := "Excellent riding posture!"
       score := posture, category := "", priority := 0 }] else []) ++
  (if lane < 60 then
    [{ type := "error"
       message := "Maintain better lane position - you\x27re drifting"
       score := lane, category := "", priority := 0 }] else []) ++
  (if speed < 65 then
    [{ type := "warning", message := "Adjust your speed for current road conditions"
       score := speed, category := "", priority := 0 }] else []) ++
  (if overall > 80 then
    [{ type := "success", message := "Great riding! Keep up the good work"
       score := overall, category := "", priority := 0 }] else [])

/-- `FrameProcessor.getCachedResult`: the fixed synthetic result returned
for near-duplicate frames. -/
def getCachedResult (now : Nat) : AnalysisResult :=
  { overallScore := 75, postureScore := 80, laneScore := 70, speedScore := 75
    annotations := [], metadata := [], processingTime := 0, modelVersion := ""
    timestamp := (now : Int)
    feedback := [{ type := "info", message := "Using cached result for similar frame"
                   score := 75, category := "", priority := 0 }] }

/-- The neutral default the worker substitutes when the client returns a
nil analysis with a nil error. -/
def nilDefaultAnalysis (now : Nat) : AnalysisResult :=
  { overallScore := 50, postureScore := 50, laneScore := 50, speedScore := 50
    annotations := [], feedback := [], metadata := [], processingTime := 0
    modelVersion := "", timestamp := (now : Int) }

/-- `FrameProcessor.isSimilarFrame`: consult the similarity key; when it
is absent, schedule `SetWithTTL(simKey, true, 5 min)` (applied here
immediately, per the header note on asynchronous cache writes) and report
the frame as new. -/
def isSimilarFrame (fp : FrameProcessorState) (imageData : List Nat) (now : Nat) :
    Bool × MemoryCache :=
  if ¬ fp.config.skipSimilarFrames then (false, fp.cache)
  else
    let simKey := GenerateCacheKey ["similarity", generateFrameHash imageData]
    if fp.cache.existsKey simKey now then (true, fp.cache)
    else (false, fp.cache.setWithTTL simKey (.bool true) (5 * 60) now)

/-- What happens on the queue/worker side of one `ProcessFrame` call:
the worker's `AnalyzeFrame` call errs, succeeds with an analysis, returns
a nil analysis, or the caller's 30 s sink read times out first. -/
inductive WorkerOutcome where
  | mlError
  | mlSuccess (analysis : AnalysisResult)
  | mlNil
  | timeoutNoResult
deriving DecidableEq

/-- The errors `ProcessFrame` returns to its caller. -/
inductive ProcessError where
  | queueFull
  | timeout
  | mlFailure
deriving DecidableEq

deriving instance DecidableEq for Except

/-- The observable outcome of one `ProcessFrame` call.  `invokedML`
records whether the inference client was called for this frame. -/
structure ProcessOutcome where
  result : Except ProcessError AnalysisResult
  state : FrameProcessorState
  invokedML : Bool
deriving DecidableEq

/-- Increment `FailedProcessed`. -/
def bumpFailed (fp : FrameProcessorState) : FrameProcessorState :=
  { fp with stats := { fp.stats with failedProcessed := fp.stats.failedProcessed + 1 } }

/-- Increment `SuccessfullyProcessed`. -/
def bumpSuccess (fp : FrameProcessorState) : FrameProcessorState :=
  { fp with stats := { fp.stats with successfullyProcessed := fp.stats.successfullyProcessed + 1 } }

/-- `FrameProcessor.ProcessFrame` as a sequential function of the state,
the request, the wall clock, whether the bounded queue accepts the item,
and the worker-side outcome.  It follows the source step for step:
count the call; build `cacheKey` from `("frame", md5(image), clientID)`;
try `cache.Get` into a zero-valued `*models.AnalysisResult`; on a hit
return whatever that destination now holds (the `Get` model only writes
through `*interface{}` destinations); otherwise consult the similarity
key and possibly return the fixed synthetic result; otherwise enqueue,
and on a worker result attach `generateFeedback` and cache the result
under `cacheKey`. -/
def ProcessFrame (fp0 : FrameProcessorState) (req : FrameRequest) (now : Nat)
    (queueAccepts : Bool) (worker : WorkerOutcome) : ProcessOutcome :=
  let fp := { fp0 with stats := { fp0.stats with totalProcessed := fp0.stats.totalProcessed + 1 } }
  let frameHash := generateFrameHash req.imageData
  let cacheKey := GenerateCacheKey ["frame", frameHash, req.clientID]
  let got := fp.cache.get cacheKey (Dest.resultPtr zeroAnalysisResult) now
  let fp1 := { fp with cache := got.2.1 }
  match got.1 with
  | .ok _ =>
    let cachedResult := match got.2.2 with
      | .resultPtr r => r
      | .interfacePtr _ => zeroAnalysisResult
    { result := .ok cachedResult, state := bumpSuccess fp1, invokedML := false }
  | .error _ =>
    let sim := if fp1.config.skipSimilarFrames then isSimilarFrame fp1 req.imageData now
               else (false, fp1.cache)
    let fp2 := { fp1 with cache := sim.2 }
    if sim.1 then
      { result := .ok (getCachedResult now), state := fp2, invokedML := false }
    else if ¬ queueAccepts then
      { result := .error .queueFull, state := bumpFailed fp2, invokedML := false }
    else
      match worker with
      | .mlError =>
        { result := .error .mlFailure, state := bumpFailed fp2, invokedML := true }
      | .timeoutNoResult =>
        { result := .error .timeout, state := bumpFailed fp2, invokedML := true }
      | .mlNil =>
        let analysis := nilDefaultAnalysis now
        let fp3 := bumpSuccess fp2
        { result := .ok analysis
          state := { fp3 with cache := fp3.cache.set cacheKey (.result analysis) now }
          invokedML := true }
      | .mlSuccess a =>
        let analysis := { a with feedback := generateFeedback a }
        let fp3 := bumpSuccess fp2
        { result := .ok analysis
          state := { fp3 with cache := fp3.cache.set cacheKey (.result analysis) now }
          invokedML := true }

/-! ### Work queue (`server/processor/queue.go`, `ProcessingQueue`)

The queue's buffered channel is modelled as a list of the buffered items'
result sinks; each sink is the content of its single-slot result channel
(`none` while nothing has been sent on it).  Worker scheduling is
abstracted into the single boolean `workersFinishInTime` consumed by
`shutdown`, which is all the shutdown claim observes. -/

/-- `processor.ProcessingResult`: at most one of the two fields is set. -/
structure ProcessingResult where
  analysis : Option AnalysisResult
  procError : Option String
deriving DecidableEq

/-- The cancellation result `DrainQueue` sends to pending sinks. -/
def cancelResult : ProcessingResult :=
  { analysis := none, procError := some "processing cancelled - queue shutting down" }

/-- The `ProcessingQueue` state: the buffered sinks, the channel capacity,
the worker count, and the running flag. -/
structure QueueState where
  buffer : List (Option ProcessingResult)
  capacity : Nat
  workers : Nat
  isRunning : Bool
  itemsClosed : Bool
deriving DecidableEq

/-- `ProcessingQueue.Enqueue`: refuse when not running; otherwise a
non-blocking channel send that succeeds exactly when the buffer has
room. -/
def QueueState.enqueue (q : QueueState) (sink : Option ProcessingResult) :
    Bool × QueueState :=
  if ¬ q.isRunning then (false, q)
  else if q.buffer.length < q.capacity then (true, { q with buffer := q.buffer ++ [sink] })
  else (false, q)

/-- `ProcessingQueue.Shutdown`: a second call returns nil immediately;
otherwise clear `isRunning`, broadcast the shutdown signal, wait for the
workers with the given timeout, close the intake channel either way, and
return an error exactly when the wait timed out.  Note that no result is
written to any buffered item's sink. -/
def QueueState.shutdown (q : QueueState) (workersFinishInTime : Bool) :
    QueueState × Bool :=
  if ¬ q.isRunning then (q, false)
  else ({ q with isRunning := false, itemsClosed := true }, ¬ workersFinishInTime)

/-- `ProcessingQueue.DrainQueue`: receive every buffered item and send the
cancellation result on its sink with a non-blocking send (a sink that
already holds a result keeps it).  Returns the drained sinks and their
count.  No code in the repository calls this method. -/
def QueueState.drainQueue (q : QueueState) :
    QueueState × List (Option ProcessingResult) × Nat :=
  let delivered := q.buffer.map (fun s => match s with
    | none => some cancelResult
    | some r => some r)
  ({ q with buffer := [] }, delivered, q.buffer.length)

/-! ### Rate limiter (`server/middleware`, `RateLimiter` / `ClientBucket`)

Time is `Nat` nanoseconds.  Go computes
`tokensToAdd := int(elapsed.Seconds() * float64(rps))`; for nonnegative
elapsed this is the floor of `elapsed_ns × rps / 10^9`, embedded here in
exact integer arithmetic. -/

/-- Nanoseconds per second. -/
def nsPerSecond : Nat := 1000000000

/-- `middleware.ClientBucket`: the token count (a Go `int`) and the time
of the last refill. -/
structure ClientBucket where
  tokens : Int
  lastUpdate : Nat
deriving DecidableEq

/-- `ClientBucket.allowRequest`: refill by `⌊elapsed_seconds × rps⌋`,
clamp at `burst`, advance `lastUpdate` unconditionally, then grant by
decrementing iff a token is available. -/
def ClientBucket.allowRequest (cb : ClientBucket) (rps burst : Nat) (now : Nat) :
    Bool × ClientBucket :=
  let elapsed := now - cb.lastUpdate
  let tokensToAdd : Int := ((elapsed * rps) / nsPerSecond : Nat)
  let t1 := cb.tokens + tokensToAdd
  let t2 := if t1 > (burst : Int) then (burst : Int) else t1
  if t2 > 0 then (true, { tokens := t2 - 1, lastUpdate := now })
  else (false, { tokens := t2, lastUpdate := now })

/-- A sequence of `allowRequest` calls at the given times; returns how
many were granted and the final bucket. -/
def allowCalls (rps burst : Nat) : ClientBucket → List Nat → Nat × ClientBucket
  | cb, [] => (0, cb)
  | cb, t :: ts =>
    let step := cb.allowRequest rps burst t
    let rest := allowCalls rps burst step.2 ts
    ((if step.1 then 1 else 0) + rest.1, rest.2)

/-- The time of the last call in a call-time list, or `d` for the empty
list (used to state the refill budget of a call sequence). -/
def lastTime : Nat → List Nat → Nat
  | d, [] => d
  | _, t :: ts => lastTime t ts

/-! ### Data-URL decoding (`WebSocketHandler.extractImageData` and the
identical `StreamHandler.extractImageData`)

Strings are modelled as `List Char`; bytes as `Nat < 256`.  The base64
codec is the standard (RFC 4648) alphabet with `=` padding, as used by
Go's `base64.StdEncoding`: the decoder requires a length that is a
multiple of four, rejects characters outside the alphabet and padding
anywhere but the final quantum, and (like Go) does not insist that the
discarded trailing bits be zero. -/

/-- The standard base64 alphabet. -/
def b64Chars : List Char :=
  ['A','B','C','D','E','F','G','H','I','J','K','L','M','N','O','P','Q','R','S',
   'T','U','V','W','X','Y','Z','a','b','c','d','e','f','g','h','i','j','k','l',
   'm','n','o','p','q','r','s','t','u','v','w','x','y','z','0','1','2','3','4',
   '5','6','7','8','9','+','/']

/-- Character for a six-bit group. -/
def sextetToChar (n : Nat) : Char := b64Chars.getD n 'A'

/-- Six-bit group for a character; `none` for characters outside the
alphabet (including `=`). -/
def charToSextet (c : Char) : Option Nat :=
  b64Chars.findIdx? (fun x => x == c)

/-- `base64.StdEncoding` encoding of a byte sequence. -/
def encodeBase64 : List Nat → List Char
  | b1 :: b2 :: b3 :: rest =>
    sextetToChar (b1 / 4) :: sextetToChar (b1 % 4 * 16 + b2 / 16) ::
    sextetToChar (b2 % 16 * 4 + b3 / 64) :: sextetToChar (b3 % 64) ::
    encodeBase64 rest
  | [b1, b2] =>
    [sextetToChar (b1 / 4), sextetToChar (b1 % 4 * 16 + b2 / 16),
     sextetToChar (b2 % 16 * 4), '=']
  | [b1] =>
    [sextetToChar (b1 / 4), sextetToChar (b1 % 4 * 16), '=', '=']
  | [] => []

/-- `base64.StdEncoding` decoding; `none` models the decode error. -/
def decodeBase64 : List Char → Option (List Nat)
  | [] => some []
  | c1 :: c2 :: c3 :: c4 :: rest => do
    let s1 ← charToSextet c1
    let s2 ← charToSextet c2
    if c4 = '=' then
      if rest = [] then
        if c3 = '=' then
          pure [s1 * 4 + s2 / 16]
        else do
          let s3 ← charToSextet c3
          pure [s1 * 4 + s2 / 16, s2 % 16 * 16 + s3 / 4]
      else none
    else do
      let s3 ← charToSextet c3
      let s4 ← charToSextet c4
      let bs ← decodeBase64 rest
      pure ((s1 * 4 + s2 / 16) :: (s2 % 16 * 16 + s3 / 4) :: (s3 % 4 * 64 + s4) :: bs)
  | _ => none

/-- Go's `strings.Split(s, ",")`. -/
def splitOnComma : List Char → List (List Char)
  | [] => [[]]
  | c :: rest =>
    if c = ',' then [] :: splitOnComma rest
    else
      match splitOnComma rest with
      | [] => [[c]]
      | h :: t => (c :: h) :: t

/-- The two error shapes of `extractImageData`: the handlers' "invalid
data URL format" error (`websocket.ErrBadHandshake` in the WebSocket
handler) and a base64 decode error. -/
inductive ExtractError where
  | badFormat
  | decodeError
deriving DecidableEq

/-- `extractImageData`: require at least one comma, split on commas,
require exactly two parts, and strictly base64-decode the second part. -/
def extractImageData (dataURL : List Char) : Except ExtractError (List Nat) :=
  if ',' ∈ dataURL then
    let parts := splitOnComma dataURL
    if parts.length ≠ 2 then .error .badFormat
    else
      match decodeBase64 (parts.getD 1 []) with
      | none => .error .decodeError
      | some bs => .ok bs
  else .error .badFormat

/-! ### Concrete fixtures used by the counterexample and witness theorems -/

/-- A fresh processor over an empty cache with the constructor defaults
(`NewMemoryCache(1000, 5 min)`, `NewFrameProcessor` config). -/
def freshProcessor : FrameProcessorState :=
  { cache := { items := [], maxSize := 1000, ttl := 300, stopChClosed := false }
    stats := { totalProcessed := 0, successfullyProcessed := 0, failedProcessed := 0 }
    config := defaultProcessorConfig }

/-- A concrete frame request from client `"a"`. -/
def reqA : FrameRequest := { imageData := [1], timestamp := 0, clientID := "a" }

/-- The same frame bytes submitted by client `"b"`. -/
def reqB : FrameRequest := { imageData := [1], timestamp := 0, clientID := "b" }

/-- A concrete inference result with all four scores 90. -/
def mlResult90 : AnalysisResult :=
  { overallScore := 90, postureScore := 90, laneScore := 90, speedScore := 90
    annotations := [], feedback := [], metadata := [], processingTime := 0
    modelVersion := "", timestamp := 0 }

/-- First call: client `"a"` submits bytes `[1]`, the inference client
answers `mlResult90`, and the call succeeds. -/
def firstCallA : ProcessOutcome := ProcessFrame freshProcessor reqA 0 true (.mlSuccess mlResult90)

/-- Second call: client `"a"` resubmits the identical bytes one second
later, well inside the 5-minute TTL. -/
def secondCallA : ProcessOutcome := ProcessFrame firstCallA.state reqA 1 true (.mlSuccess mlResult90)

/-- Client `"b"` submits the same bytes one second after `firstCallA`. -/
def secondCallB : ProcessOutcome := ProcessFrame firstCallA.state reqB 1 true (.mlSuccess mlResult90)

/-- A syntactically valid inference response whose overall score is 150. -/
def resp150 : AnalysisResponse :=
  { overallScore := 150, postureScore := 90, laneScore := 90, speedScore := 90
    detections := [], poseKeypoints := []
    sceneAnalysis := ⟨"", 0, "", "", "", "", 0, 0⟩
    processingTime := 0, modelVersion := "" }

/-- A successful call whose worker result is the converted `resp150`. -/
def call150 : ProcessOutcome :=
  ProcessFrame freshProcessor { imageData := [2], timestamp := 0, clientID := "c" } 0 true
    (.mlSuccess (convertMLResponse resp150 0))

/-- A live cache holding one unexpired entry under key `"k"`. -/
def cacheLive : MemoryCache :=
  { items := [("k", ⟨CacheValue.int 7, 100, 0, 1⟩)], maxSize := 1000, ttl := 300
    stopChClosed := false }

/-- A cache whose entry `"k"` (an `int64` 5) expired at time 10. -/
def cacheExpired5 : MemoryCache :=
  { items := [("k", ⟨CacheValue.int 5, 10, 0, 1⟩)], maxSize := 1000, ttl := 300
    stopChClosed := false }

/-- A running queue holding one buffered item whose sink is still empty. -/
def queueOnePending : QueueState :=
  { buffer := [none], capacity := 4, workers := 4, isRunning := true, itemsClosed := false }

/-! ## Theorems -/

/-- C9: on a present, non-expired key, `Cache.Get` returns a nil error;
it writes the stored value through the destination exactly when the
destination is a `*interface{}`, and leaves a destination of any other
pointer type (such as the `*models.AnalysisResult` the frame processor
passes) completely unchanged. -/
theorem C9_get_dest_typing (c : MemoryCache) (key : String) (item : CacheItem)
    (now : Nat) (r : AnalysisResult) (d : Option CacheValue)
    (hfound : lookupItem c.items key = some item)
    (hfresh : ¬ now > item.expiresAt) :
    ((c.get key (Dest.interfacePtr d) now).1 = .ok () ∧
      (c.get key (Dest.interfacePtr d) now).2.2 = Dest.interfacePtr (some item.value)) ∧
    ((c.get key (Dest.resultPtr r) now).1 = .ok () ∧
      (c.get key (Dest.resultPtr r) now).2.2 = Dest.resultPtr r) := by
  unfold MemoryCache.get
  rw [hfound]
  simp [hfresh]

/-- Witness for C9 at the concrete cache `cacheLive` and time 50. -/
theorem C9_get_dest_typing_witness :
    ((cacheLive.get "k" (Dest.interfacePtr none) 50).1 = .ok () ∧
      (cacheLive.get "k" (Dest.interfacePtr none) 50).2.2 =
        Dest.interfacePtr (some (CacheValue.int 7)) ∧
      (cacheLive.get "k" (Dest.resultPtr zeroAnalysisResult) 50).1 = .ok () ∧
      (cacheLive.get "k" (Dest.resultPtr zeroAnalysisResult) 50).2.2 =
        Dest.resultPtr zeroAnalysisResult) := by
  have h := C9_get_dest_typing cacheLive "k" ⟨CacheValue.int 7, 100, 0, 1⟩ 50
    zeroAnalysisResult none (by decide) (by decide)
  exact ⟨h.1.1, h.1.2, h.2.1, h.2.2⟩

/-- C4 counterexample: on `cacheLive`, a first `Close` succeeds but a
second `Close` panics (Go `close` of a closed channel, modelled as
`none`), and after `Close` both `Get` and `Set` still succeed normally
instead of failing with a closed-cache error. -/
theorem C4_counterexample :
    cacheLive.close.bind MemoryCache.close = none ∧
    cacheLive.close.map (fun c1 => (c1.get "k" (Dest.interfacePtr none) 50).1) =
      some (.ok ()) ∧
    cacheLive.close.map (fun c1 => ((c1.set "k2" (CacheValue.int 1) 50).items.length)) =
      some 2 := by
  decide

/-- C4 amended: `Close` is not idempotent — a second `Close` panics
closing the already-closed `stopCh` channel — and `Close` does not
disable the cache: every subsequent operation behaves exactly as it did
before `Close` (there is no closed-cache error in the code). -/
theorem C4_close_amended (c : MemoryCache) (hopen : c.stopChClosed = false)
    (key key2 : String) (v : CacheValue) (dest : Dest) (now : Nat) :
    ∃ cc, c.close = some cc ∧
      cc.close = none ∧
      (cc.get key dest now).1 = (c.get key dest now).1 ∧
      (cc.get key dest now).2.2 = (c.get key dest now).2.2 ∧
      (cc.set key2 v now).items = (c.set key2 v now).items := by
  refine ⟨{ c with stopChClosed := true }, ?_, ?_, ?_, ?_, ?_⟩
  · simp [MemoryCache.close, hopen]
  · simp [MemoryCache.close]
  · unfold MemoryCache.get
    cases h : lookupItem c.items key with
    | none => simp [h]
    | some item => by_cases hexp : now > item.expiresAt <;> simp [h, hexp]
  · unfold MemoryCache.get
    cases h : lookupItem c.items key with
    | none => simp [h]
    | some item => by_cases hexp : now > item.expiresAt <;> simp [h, hexp]
  · unfold MemoryCache.set
    rfl

/-- Witness for the amended C4 at the concrete cache `cacheLive`. -/
theorem C4_close_amended_witness :
    ∃ cc, cacheLive.close = some cc ∧
      cc.close = none ∧
      (cc.get "k" (Dest.interfacePtr none) 50).1 =
        (cacheLive.get "k" (Dest.interfacePtr none) 50).1 ∧
      (cc.get "k" (Dest.interfacePtr none) 50).2.2 =
        (cacheLive.get "k" (Dest.interfacePtr none) 50).2.2 ∧
      (cc.set "k2" (CacheValue.int 1) 50).items =
        (cacheLive.set "k2" (CacheValue.int 1) 50).items :=
  C4_close_amended cacheLive (by decide) "k" "k2" (CacheValue.int 1)
    (Dest.interfacePtr none) 50

/-- C5 counterexample: in `cacheExpired5` the key `"k"` is present but
expired at `now = 20` (so `Exists` reports false), yet `IncrementWithTTL`
returns 6 — it increments the expired integer instead of resetting the
value to 1 as the claim states. -/
theorem C5_counterexample :
    (lookupItem cacheExpired5.items "k").isSome = true ∧
    cacheExpired5.existsKey "k" 20 = false ∧
    (cacheExpired5.incrementWithTTL "k" 60 20).1 = 6 ∧
    (cacheExpired5.incrementWithTTL "k" 60 20).1 ≠ 1 := by
  decide

/-- C5 amended: `Increment` treats missing and expired entries alike
(value restarts at 1 with the default TTL) and otherwise leaves
`ExpiresAt` untouched, resetting non-integer values to 1; but
`IncrementWithTTL` never consults expiry — any present integer entry,
expired or not, is incremented — creates missing entries at 1, resets
non-integer values to 1, and always sets `ExpiresAt` to `now + ttl`. -/
theorem C5_increment_amended (c : MemoryCache) (key : String) (ttl now : Nat) :
    ((lookupItem c.items key = none →
        c.increment key now =
          (1, { c with items := setItem c.items key ⟨CacheValue.int 1, now + c.ttl, now, 1⟩ })) ∧
     (∀ item, lookupItem c.items key = some item → now > item.expiresAt →
        c.increment key now =
          (1, { c with items := setItem c.items key { item with value := CacheValue.int 1, expiresAt := now + c.ttl, lastUsed := now, accessCount := 1 } })) ∧
     (∀ item n, lookupItem c.items key = some item → ¬ now > item.expiresAt →
        item.value = CacheValue.int n →
        c.increment key now =
          (n + 1, { c with items := setItem c.items key { item with value := CacheValue.int (n + 1), lastUsed := now, accessCount := item.accessCount + 1 } })) ∧
     (∀ item, lookupItem c.items key = some item → ¬ now > item.expiresAt →
        (∀ n, item.value ≠ CacheValue.int n) →
        c.increment key now =
          (1, { c with items := setItem c.items key { item with value := CacheValue.int 1, lastUsed := now, accessCount := item.accessCount + 1 } }))) ∧
    ((lookupItem c.items key = none →
        c.incrementWithTTL key ttl now =
          (1, { c with items := setItem c.items key ⟨CacheValue.int 1, now + ttl, now, 1⟩ })) ∧
     (∀ item n, lookupItem c.items key = some item → item.value = CacheValue.int n →
        c.incrementWithTTL key ttl now =
          (n + 1, { c with items := setItem c.items key { item with value := CacheValue.int (n + 1), expiresAt := now + ttl, lastUsed := now, accessCount := item.accessCount + 1 } })) ∧
     (∀ item, lookupItem c.items key = some item → (∀ n, item.value ≠ CacheValue.int n) →
        c.incrementWithTTL key ttl now =
          (1, { c with items := setItem c.items key { item with value := CacheValue.int 1, expiresAt := now + ttl, lastUsed := now, accessCount := item.accessCount + 1 } }))) := by
  constructor
  · refine ⟨?_, ?_, ?_, ?_⟩
    · intro h; unfold MemoryCache.increment; rw [h]
    · intro item h hexp; unfold MemoryCache.increment; rw [h]; simp [hexp]
    · intro item n h hexp hv; unfold MemoryCache.increment; rw [h]; simp [hexp, hv]
    · intro item h hexp hv
      unfold MemoryCache.increment; rw [h]; simp only [if_neg hexp]
  · refine ⟨?_, ?_, ?_⟩
    · intro h; unfold MemoryCache.incrementWithTTL; rw [h]
    · intro item n h hv; unfold MemoryCache.incrementWithTTL; rw [h]; simp [hv]
    · intro item h hv
      unfold MemoryCache.incrementWithTTL; rw [h]
      simp only []

/-- Witness for the amended C5: the expired-integer case of
`IncrementWithTTL` on `cacheExpired5` gives 6 exactly as characterized. -/
theorem C5_increment_amended_witness :
    cacheExpired5.incrementWithTTL "k" 60 20 =
      (6, { cacheExpired5 with items := setItem cacheExpired5.items "k" ⟨CacheValue.int 6, 80, 20, 2⟩ }) := by
  have h := (C5_increment_amended cacheExpired5 "k" 60 20).2.2.1
    ⟨CacheValue.int 5, 10, 0, 1⟩ 5 (by decide) (by decide)
  exact h

/-- C1 (code bug): with an empty cache, client `"a"` submits bytes `[1]`
and the inference client answers all-90 scores, so the first call
succeeds with `R` = the scores plus their feedback.  The identical call
one second later hits the cache and does not invoke the inference
client — but because `Cache.Get` only writes through a `*interface{}`
destination and `ProcessFrame` passes a `*models.AnalysisResult`, the
call returns the zero-valued result instead of a byte-equal copy of
`R`. -/
theorem C1_cache_hit_code_bug :
    firstCallA.result = .ok { mlResult90 with feedback := generateFeedback mlResult90 } ∧
    secondCallA.invokedML = false ∧
    secondCallA.result = .ok zeroAnalysisResult ∧
    secondCallA.result ≠ firstCallA.result := by
  decide

/-- C3 counterexample: shutting down `queueOnePending` (one buffered item
whose sink is empty, workers finishing in time) returns no error, stops
the queue — but the pending item's sink still holds no result at all, so
it never received the cancellation result the claim promises.  The
`DrainQueue` method that would deliver it is not called by `Shutdown`
(nor by anything else in the repository). -/
theorem C3_counterexample :
    (queueOnePending.shutdown true).2 = false ∧
    (queueOnePending.shutdown true).1.isRunning = false ∧
    (queueOnePending.shutdown true).1.buffer = [none] := by
  decide

/-- C3 amended: `Shutdown` stops intake (a subsequent `Enqueue` returns
false), returns an error exactly when the workers fail to drain within
the timeout (for a running queue), and leaves every pending queued item's
sink untouched; the cancellation results are only produced by the
separate `DrainQueue` method, which fills every still-empty sink with the
cancellation result but is never invoked by `Shutdown`. -/
theorem C3_shutdown_amended (q : QueueState) (finish : Bool)
    (sink : Option ProcessingResult) :
    (((q.shutdown finish).1.enqueue sink).1 = false) ∧
    (q.isRunning = true → ((q.shutdown finish).2 = true ↔ finish = false)) ∧
    ((q.shutdown finish).1.buffer = q.buffer) ∧
    (q.drainQueue.2.1 = q.buffer.map (fun s => match s with
      | none => some cancelResult
      | some r => some r)) := by
  cases hr : q.isRunning <;> cases finish <;>
    simp [QueueState.shutdown, QueueState.enqueue, QueueState.drainQueue, hr]

/-- Witness for the amended C3 at `queueOnePending` with a timed-out
worker wait. -/
theorem C3_shutdown_amended_witness :
    (((queueOnePending.shutdown false).1.enqueue none).1 = false) ∧
    (queueOnePending.isRunning = true →
      ((queueOnePending.shutdown false).2 = true ↔ false = false)) ∧
    ((queueOnePending.shutdown false).1.buffer = queueOnePending.buffer) ∧
    (queueOnePending.drainQueue.2.1 = queueOnePending.buffer.map (fun s => match s with
      | none => some cancelResult
      | some r => some r)) :=
  C3_shutdown_amended queueOnePending false none

/-- C2 counterexample: with the default configuration (`MaxRetries = 3`)
and a server that always answers 200 with an undecodable body, the
client makes 4 HTTP calls with back-off sleeps `delay×1, delay×2,
delay×3` before surfacing the decode error — the malformed payload is
retried exactly like a transport error, not treated as a hard error. -/
theorem C2_counterexample :
    (AnalyzeFrame (fun _ => .httpResponse 200 .malformed) defaultClientConfig 0).2.1 = 4 ∧
    (AnalyzeFrame (fun _ => .httpResponse 200 .malformed) defaultClientConfig 0).2.2 = [1, 2, 3] ∧
    (AnalyzeFrame (fun _ => .httpResponse 200 .malformed) defaultClientConfig 0).1 =
      .error (.failedAfter 3 .decodeFailed) := by
  decide

/-- The retry loop makes at least one and at most `remaining + 1` calls. -/
theorem analyzeFrameAux_calls_bounds (oracle : Nat → AttemptOutcome) (delay : Nat)
    (now : Int) :
    ∀ (remaining attempt : Nat),
      1 ≤ (analyzeFrameAux oracle delay now attempt remaining).2.1 ∧
      (analyzeFrameAux oracle delay now attempt remaining).2.1 ≤ remaining + 1 := by
  intro remaining
  induction remaining with
  | zero =>
    intro attempt
    rw [analyzeFrameAux]
    cases executeAnalysisRequest (oracle attempt) now <;> simp
  | succ n ih =>
    intro attempt
    rw [analyzeFrameAux]
    cases h : executeAnalysisRequest (oracle attempt) now with
    | ok r => simp
    | error e =>
      simp only [h]
      have hb := ih (attempt + 1)
      omega

/-- When every attempt in range errs, the loop runs all `remaining + 1`
attempts. -/
theorem analyzeFrameAux_all_error (oracle : Nat → AttemptOutcome) (delay : Nat)
    (now : Int) :
    ∀ (remaining attempt : Nat),
      (∀ i, attempt ≤ i → i ≤ attempt + remaining →
          ∃ e, executeAnalysisRequest (oracle i) now = .error e) →
      (analyzeFrameAux oracle delay now attempt remaining).2.1 = remaining + 1 := by
  intro remaining
  induction remaining with
  | zero =>
    intro attempt hall
    obtain ⟨e, he⟩ := hall attempt le_rfl (by omega)
    rw [analyzeFrameAux]
    simp [he]
  | succ n ih =>
    intro attempt hall
    obtain ⟨e, he⟩ := hall attempt le_rfl (by omega)
    rw [analyzeFrameAux]
    simp only [he]
    have hrec := ih (attempt + 1) (fun i h1 h2 => hall i (by omega) (by omega))
    omega

/-- The sleeps taken from a positive attempt index onward are exactly
`delay × attempt, delay × (attempt+1), …`, one per call made. -/
theorem analyzeFrameAux_sleeps (oracle : Nat → AttemptOutcome) (delay : Nat)
    (now : Int) :
    ∀ (remaining attempt : Nat), 1 ≤ attempt →
      (analyzeFrameAux oracle delay now attempt remaining).2.2 =
        (List.range' attempt (analyzeFrameAux oracle delay now attempt remaining).2.1).map
          (fun i => delay * i) := by
  intro remaining
  induction remaining with
  | zero =>
    intro attempt ha
    have h0 : 0 < attempt := ha
    rw [analyzeFrameAux]
    cases executeAnalysisRequest (oracle attempt) now <;>
      simp [List.range'_one, if_pos h0]
  | succ n ih =>
    intro attempt ha
    have h0 : 0 < attempt := ha
    rw [analyzeFrameAux]
    cases h : executeAnalysisRequest (oracle attempt) now with
    | ok r => simp [List.range'_one, if_pos h0]
    | error e =>
      have hrec := ih (attempt + 1) (by omega)
      simp only [h, if_pos h0]
      rw [List.range'_succ]
      simp [hrec]

/-- The sleeps of a full `AnalyzeFrame` run (starting at attempt 0, which
sleeps nothing) are `delay × 1, …, delay × (calls − 1)`. -/
theorem analyzeFrameAux_sleeps_zero (oracle : Nat → AttemptOutcome) (delay : Nat)
    (now : Int) (remaining : Nat) :
    (analyzeFrameAux oracle delay now 0 remaining).2.2 =
      (List.range' 1 ((analyzeFrameAux oracle delay now 0 remaining).2.1 - 1)).map
        (fun i => delay * i) := by
  cases remaining with
  | zero =>
    rw [analyzeFrameAux]
    cases executeAnalysisRequest (oracle 0) now <;> simp
  | succ n =>
    rw [analyzeFrameAux]
    cases h : executeAnalysisRequest (oracle 0) now with
    | ok r => simp
    | error e =>
      have hrec := analyzeFrameAux_sleeps oracle delay now n 1 le_rfl
      simp only [h]
      simp [hrec]

/-- C2 amended: every failed attempt — transport error, non-200 status,
or malformed (undecodable) payload alike — is retried until
`MaxRetries` is exhausted; at most `MaxRetries + 1` calls (default 4)
are made, with linear back-off `RetryDelay × attempt` before the
`attempt`-th retry. -/
theorem C2_retry_policy_amended (oracle : Nat → AttemptOutcome) (cfg : ClientConfig)
    (now : Int)
    (hall : ∀ i, i ≤ cfg.maxRetries →
        ∃ e, executeAnalysisRequest (oracle i) now = .error e) :
    (AnalyzeFrame oracle cfg now).2.1 = cfg.maxRetries + 1 ∧
    (∀ oracle2 : Nat → AttemptOutcome,
      (AnalyzeFrame oracle2 cfg now).2.1 ≤ cfg.maxRetries + 1) ∧
    (∀ oracle2 : Nat → AttemptOutcome,
      (AnalyzeFrame oracle2 cfg now).2.2 =
        (List.range' 1 ((AnalyzeFrame oracle2 cfg now).2.1 - 1)).map
          (fun i => cfg.retryDelay * i)) := by
  refine ⟨?_, ?_, ?_⟩
  · exact analyzeFrameAux_all_error oracle cfg.retryDelay now cfg.maxRetries 0
      (fun i h1 h2 => hall i (by omega))
  · intro oracle2
    exact (analyzeFrameAux_calls_bounds oracle2 cfg.retryDelay now cfg.maxRetries 0).2
  · intro oracle2
    exact analyzeFrameAux_sleeps_zero oracle2 cfg.retryDelay now cfg.maxRetries

/-- Witness for the amended C2: an always-failing transport with the
default configuration makes exactly 4 calls; a 500-answering server
stays within the bound with the linear back-off schedule. -/
theorem C2_retry_policy_amended_witness :
    (AnalyzeFrame (fun _ => .transportError) defaultClientConfig 0).2.1 =
      defaultClientConfig.maxRetries + 1 ∧
    (AnalyzeFrame (fun _ => .httpResponse 500 .malformed) defaultClientConfig 0).2.1 ≤
      defaultClientConfig.maxRetries + 1 ∧
    (AnalyzeFrame (fun _ => .httpResponse 500 .malformed) defaultClientConfig 0).2.2 =
      (List.range' 1
          ((AnalyzeFrame (fun _ => .httpResponse 500 .malformed) defaultClientConfig 0).2.1 - 1)).map
        (fun i => defaultClientConfig.retryDelay * i) := by
  have h := C2_retry_policy_amended (fun _ => .transportError) defaultClientConfig 0
    (fun i _ => ⟨.httpRequestFailed, rfl⟩)
  exact ⟨h.1, h.2.1 _, h.2.2 _⟩

/-- C6 counterexample: two successful `ProcessFrame` calls violate the
claim.  (i) After client `"a"`'s first call marks bytes `[1]` as seen,
client `"b"`'s call on the same bytes succeeds with the synthetic
similar-frame result, whose single `info` feedback item is not the list
the five rules derive from its scores (75, 80, 70, 75), which is empty.
(ii) A call whose inference response carries `overall_score = 150`
succeeds with an overall score of 150, outside [0, 100]. -/
theorem C6_counterexample :
    secondCallB.result = .ok (getCachedResult 1) ∧
    (getCachedResult 1).feedback ≠
      specRuleFeedback (getCachedResult 1).overallScore (getCachedResult 1).postureScore
        (getCachedResult 1).laneScore (getCachedResult 1).speedScore ∧
    call150.result = .ok { convertMLResponse resp150 0 with
      feedback := generateFeedback (convertMLResponse resp150 0) } ∧
    (convertMLResponse resp150 0).overallScore = 150 := by
  decide

/-- C6 amended: on the queue path (cache key missed, similarity key
absent, queue accepting) a successful call returns the worker's analysis
with its scores passed through unaltered (not clamped to [0, 100]) and
with feedback exactly `generateFeedback` of that analysis, which agrees
with the five spec rules applied to the four scores in order — a
function of the scores alone.  The cache-hit and similar-frame success
paths, by contrast, return fixed feedback not derived from the rules. -/
theorem C6_feedback_amended (fp : FrameProcessorState) (req : FrameRequest) (now : Nat)
    (a : AnalysisResult)
    (hmiss : lookupItem fp.cache.items
      (GenerateCacheKey ["frame", generateFrameHash req.imageData, req.clientID]) = none)
    (hnew : fp.cache.existsKey
      (GenerateCacheKey ["similarity", generateFrameHash req.imageData]) now = false) :
    (ProcessFrame fp req now true (.mlSuccess a)).result =
      .ok { a with feedback := generateFeedback a } ∧
    generateFeedback a =
      specRuleFeedback a.overallScore a.postureScore a.laneScore a.speedScore ∧
    (∀ b : AnalysisResult, b.overallScore = a.overallScore →
      b.postureScore = a.postureScore → b.laneScore = a.laneScore →
      b.speedScore = a.speedScore → generateFeedback b = generateFeedback a) := by
  refine ⟨?_, ?_, ?_⟩
  · by_cases hskip : fp.config.skipSimilarFrames <;>
      simp [ProcessFrame, MemoryCache.get, isSimilarFrame, hmiss, hnew, hskip]
  · unfold generateFeedback specRuleFeedback
    split_ifs <;> first | rfl | omega
  · intro b h1 h2 h3 h4
    unfold generateFeedback
    rw [h1, h2, h3, h4]

/-- Witness for the amended C6: a fresh processor, client `"a"`, and the
all-90 inference result. -/
theorem C6_feedback_amended_witness :
    (ProcessFrame freshProcessor reqA 0 true (.mlSuccess mlResult90)).result =
      .ok { mlResult90 with feedback := generateFeedback mlResult90 } ∧
    generateFeedback mlResult90 =
      specRuleFeedback mlResult90.overallScore mlResult90.postureScore
        mlResult90.laneScore mlResult90.speedScore := by
  have h := C6_feedback_amended freshProcessor reqA 0 mlResult90 (by decide) (by decide)
  exact ⟨h.1, h.2.1⟩

/-- Facts about one `allowRequest` call: a granted call consumes one
token on top of the refill budget, a denied call consumes none, tokens
stay nonnegative and clamped at `burst`, and `lastUpdate` advances. -/
lemma allowRequest_facts (rps burst : Nat) (cb : ClientBucket) (t : Nat) :
    ((cb.allowRequest rps burst t).1 = true →
      1 + (cb.allowRequest rps burst t).2.tokens ≤
        cb.tokens + (((t - cb.lastUpdate) * rps / nsPerSecond : Nat) : Int)) ∧
    ((cb.allowRequest rps burst t).1 = false →
      (cb.allowRequest rps burst t).2.tokens ≤
        cb.tokens + (((t - cb.lastUpdate) * rps / nsPerSecond : Nat) : Int)) ∧
    (0 ≤ cb.tokens → 0 ≤ (cb.allowRequest rps burst t).2.tokens) ∧
    (cb.allowRequest rps burst t).2.tokens ≤ (burst : Int) ∧
    ((cb.allowRequest rps burst t).1 = true →
      1 + (cb.allowRequest rps burst t).2.tokens ≤ (burst : Int)) ∧
    (cb.allowRequest rps burst t).2.lastUpdate = t := by
  have hA0 : (0 : Int) ≤ (((t - cb.lastUpdate) * rps / nsPerSecond : Nat) : Int) :=
    Int.natCast_nonneg _
  simp only [ClientBucket.allowRequest]
  by_cases h1 : cb.tokens + (((t - cb.lastUpdate) * rps / nsPerSecond : Nat) : Int) > (burst : Int)
  · simp only [if_pos h1]
    by_cases h2 : (burst : Int) > 0
    · simp only [if_pos h2]
      refine ⟨fun _ => ?_, fun hF => ?_, fun _ => ?_, ?_, fun _ => ?_, trivial⟩
      · omega
      · simp at hF
      · omega
      · omega
      · omega
    · simp only [if_neg h2]
      refine ⟨fun hT => ?_, fun _ => ?_, fun _ => ?_, ?_, fun hT => ?_, trivial⟩
      · simp at hT
      · omega
      · omega
      · omega
      · simp at hT
  · simp only [if_neg h1]
    by_cases h2 : cb.tokens + (((t - cb.lastUpdate) * rps / nsPerSecond : Nat) : Int) > 0
    · simp only [if_pos h2]
      refine ⟨fun _ => ?_, fun hF => ?_, fun _ => ?_, ?_, fun _ => ?_, trivial⟩
      · omega
      · simp at hF
      · omega
      · omega
      · omega
    · simp only [if_neg h2]
      refine ⟨fun hT => ?_, fun _ => ?_, fun _ => ?_, ?_, fun hT => ?_, trivial⟩
      · simp at hT
      · omega
      · omega
      · omega
      · simp at hT

/-- Nat division is superadditive. -/
lemma div_add_div_le_nat (a b c : Nat) : a / c + b / c ≤ (a + b) / c := by
  rcases Nat.eq_zero_or_pos c with hc | hc
  · subst hc; simp
  · rw [Nat.le_div_iff_mul_le hc]
    calc (a / c + b / c) * c = a / c * c + b / c * c := by ring
    _ ≤ a + b := Nat.add_le_add (Nat.div_mul_le_self a c) (Nat.div_mul_le_self b c)

/-- Along a monotone chain the last time is at least the start. -/
lemma le_lastTime : ∀ (ts : List Nat) (d : Nat), List.Chain (· ≤ ·) d ts → d ≤ lastTime d ts := by
  intro ts
  induction ts with
  | nil => intro d _; exact le_rfl
  | cons t ts ih =>
    intro d h
    cases h with
    | cons hdt htail => exact le_trans hdt (ih t htail)

/-- Potential argument: the grants of a call sequence are bounded by the
starting tokens plus the total refill of the spanned interval. -/
lemma allowCalls_grants_le (rps burst : Nat) : ∀ (ts : List Nat) (cb : ClientBucket),
    0 ≤ cb.tokens → cb.tokens ≤ (burst : Int) → List.Chain (· ≤ ·) cb.lastUpdate ts →
    ((allowCalls rps burst cb ts).1 : Int) ≤
      cb.tokens + (((lastTime cb.lastUpdate ts - cb.lastUpdate) * rps / nsPerSecond : Nat) : Int) := by
  intro ts
  induction ts with
  | nil =>
    intro cb h0 hb _
    simpa [allowCalls, lastTime] using h0
  | cons t ts ih =>
    intro cb h0 hb hchain
    cases hchain with
    | cons hdt htail =>
      have hf := allowRequest_facts rps burst cb t
      have htle : t ≤ lastTime t ts := le_lastTime ts t htail
      have hrec := ih (cb.allowRequest rps burst t).2 (hf.2.2.1 h0)
        hf.2.2.2.1 (by rw [hf.2.2.2.2.2]; exact htail)
      rw [hf.2.2.2.2.2] at hrec
      have hdiv : ((t - cb.lastUpdate) * rps / nsPerSecond : Nat) +
          ((lastTime t ts - t) * rps / nsPerSecond : Nat) ≤
          ((lastTime t ts - cb.lastUpdate) * rps / nsPerSecond : Nat) := by
        have hd := div_add_div_le_nat ((t - cb.lastUpdate) * rps) ((lastTime t ts - t) * rps)
          nsPerSecond
        have heq : (t - cb.lastUpdate) * rps + (lastTime t ts - t) * rps =
            (lastTime t ts - cb.lastUpdate) * rps := by
          rw [← Nat.add_mul]
          congr 1
          omega
        rwa [heq] at hd
      have hunfold : (allowCalls rps burst cb (t :: ts)).1 =
          (if (cb.allowRequest rps burst t).1 then 1 else 0) +
          (allowCalls rps burst (cb.allowRequest rps burst t).2 ts).1 := rfl
      have hlt : lastTime cb.lastUpdate (t :: ts) = lastTime t ts := rfl
      rw [hunfold, hlt]
      cases hgr : (cb.allowRequest rps burst t).1 with
      | false =>
        have hg := hf.2.1 hgr
        simp only [if_neg Bool.false_ne_true] at hg ⊢
        omega
      | true =>
        have hg := hf.1 hgr
        simp only [eq_self_iff_true, if_true] at hg ⊢
        omega

/-- The last time of a call list is the start or one of the calls. -/
lemma lastTime_mem : ∀ (ts : List Nat) (d : Nat), lastTime d ts = d ∨ lastTime d ts ∈ ts := by
  intro ts
  induction ts with
  | nil => intro d; exact .inl rfl
  | cons t ts ih =>
    intro d
    rcases ih t with h | h
    · right
      have hstep : lastTime d (t :: ts) = lastTime t ts := rfl
      rw [hstep, h]
      exact List.mem_cons_self t ts
    · right
      exact List.mem_cons_of_mem t h

/-- C7: after every `allowRequest` call the bucket satisfies
`0 ≤ tokens ≤ burst` (refill adds `⌊elapsed·rps⌋` clamped at `burst`, a
grant decrements by one), and for any monotone sequence of calls all
lying within `T` seconds of the first call (times in nanoseconds), the
number of calls returning true is at most `burst + rps·T`. -/
theorem C7_token_bucket (rps burst : Nat) (cb : ClientBucket)
    (h0 : 0 ≤ cb.tokens) (hb : cb.tokens ≤ (burst : Int)) :
    (∀ now : Nat, 0 ≤ (cb.allowRequest rps burst now).2.tokens ∧
        (cb.allowRequest rps burst now).2.tokens ≤ (burst : Int)) ∧
    (∀ (T t : Nat) (ts : List Nat), List.Chain (· ≤ ·) cb.lastUpdate (t :: ts) →
        (∀ u ∈ t :: ts, u ≤ t + T * nsPerSecond) →
        (allowCalls rps burst cb (t :: ts)).1 ≤ burst + rps * T) := by
  constructor
  · intro now
    have hf := allowRequest_facts rps burst cb now
    exact ⟨hf.2.2.1 h0, hf.2.2.2.1⟩
  · intro T t ts hchain hwin
    cases hchain with
    | cons hdt htail =>
      have hf := allowRequest_facts rps burst cb t
      have hrec := allowCalls_grants_le rps burst ts (cb.allowRequest rps burst t).2
        (hf.2.2.1 h0) hf.2.2.2.1 (by rw [hf.2.2.2.2.2]; exact htail)
      rw [hf.2.2.2.2.2] at hrec
      have hlastle : lastTime t ts ≤ t + T * nsPerSecond := by
        rcases lastTime_mem ts t with h | h
        · rw [h]; omega
        · exact hwin _ (List.mem_cons_of_mem _ h)
      have hdivle : ((lastTime t ts - t) * rps / nsPerSecond : Nat) ≤ T * rps := by
        have h1 : (lastTime t ts - t) * rps ≤ (T * nsPerSecond) * rps :=
          Nat.mul_le_mul_right rps (by omega)
        have h2 := Nat.div_le_div_right (c := nsPerSecond) h1
        have h3 : ((T * nsPerSecond) * rps) / nsPerSecond = T * rps := by
          rw [show T * nsPerSecond * rps = (T * rps) * nsPerSecond by ring]
          exact Nat.mul_div_cancel _ (by norm_num [nsPerSecond])
        omega
      have hunfold : (allowCalls rps burst cb (t :: ts)).1 =
          (if (cb.allowRequest rps burst t).1 then 1 else 0) +
          (allowCalls rps burst (cb.allowRequest rps burst t).2 ts).1 := rfl
      rw [hunfold]
      have hcomm : rps * T = T * rps := Nat.mul_comm rps T
      cases hgr : (cb.allowRequest rps burst t).1 with
      | false =>
        have hd := hf.2.2.2.1
        simp only [if_neg Bool.false_ne_true]
        omega
      | true =>
        have hgT := hf.2.2.2.2.1 hgr
        simp only [eq_self_iff_true, if_true]
        omega

/-- Witness for C7: a full bucket (3 tokens) at `rps = 2`, `burst = 3`;
five simultaneous calls grant at most `3 + 2·1`. -/
theorem C7_token_bucket_witness :
    (0 ≤ (ClientBucket.allowRequest ⟨3, 0⟩ 2 3 0).2.tokens ∧
      (ClientBucket.allowRequest ⟨3, 0⟩ 2 3 0).2.tokens ≤ (3 : Int)) ∧
    (allowCalls 2 3 ⟨3, 0⟩ (0 :: [0, 0, 0, 0])).1 ≤ 3 + 2 * 1 := by
  have h := C7_token_bucket 2 3 ⟨3, 0⟩ (by decide) (by decide)
  exact ⟨h.1 0, h.2 1 0 [0, 0, 0, 0] (by norm_num [List.chain_cons]) (by decide)⟩

/-- A call that arrives less than `1/rps` seconds after the previous
refill of an exhausted bucket adds zero tokens, is denied, and still
advances `lastUpdate`. -/
lemma allowRequest_starved (rps burst : Nat) (cb : ClientBucket) (t : Nat)
    (hz : cb.tokens = 0) (hshort : (t - cb.lastUpdate) * rps < nsPerSecond) :
    cb.allowRequest rps burst t = (false, { tokens := 0, lastUpdate := t }) := by
  have hadd : (t - cb.lastUpdate) * rps / nsPerSecond = 0 := Nat.div_eq_of_lt hshort
  simp only [ClientBucket.allowRequest, hadd, hz, Nat.cast_zero, add_zero, zero_add]
  rw [if_neg (not_lt.mpr (Int.natCast_nonneg burst)), if_neg (lt_irrefl 0)]

/-- Iterating: an exhausted bucket stays exhausted under calls that are
each less than `1/rps` seconds after the previous one. -/
lemma allowCalls_starved (rps burst : Nat) : ∀ (ts : List Nat) (cb : ClientBucket),
    cb.tokens = 0 →
    List.Chain (fun a b => a ≤ b ∧ (b - a) * rps < nsPerSecond) cb.lastUpdate ts →
    (allowCalls rps burst cb ts).1 = 0 ∧ (allowCalls rps burst cb ts).2.tokens = 0 := by
  intro ts
  induction ts with
  | nil => intro cb hz _; exact ⟨rfl, hz⟩
  | cons t ts ih =>
    intro cb hz hchain
    cases hchain with
    | cons hd htail =>
      have hstep := allowRequest_starved rps burst cb t hz hd.2
      have hunfold : allowCalls rps burst cb (t :: ts) =
          ((if (cb.allowRequest rps burst t).1 then 1 else 0) +
            (allowCalls rps burst (cb.allowRequest rps burst t).2 ts).1,
           (allowCalls rps burst (cb.allowRequest rps burst t).2 ts).2) := rfl
      rw [hunfold, hstep]
      have hrec := ih { tokens := 0, lastUpdate := t } rfl htail
      simpa using hrec

/-- C10: a call arriving less than `1/rps` seconds after the previous
refill adds `⌊elapsed·rps⌋ = 0` tokens while `lastUpdate` still advances
to `now`; hence a client whose bucket is exhausted and who keeps calling
at intervals shorter than `1/rps` seconds is denied on every call,
regardless of how much total time elapses. -/
theorem C10_starved_denial (rps burst : Nat) (cb : ClientBucket) (now : Nat)
    (hz : cb.tokens = 0) (hshort : (now - cb.lastUpdate) * rps < nsPerSecond) :
    cb.allowRequest rps burst now = (false, { tokens := 0, lastUpdate := now }) ∧
    (∀ ts : List Nat,
      List.Chain (fun a b => a ≤ b ∧ (b - a) * rps < nsPerSecond) cb.lastUpdate ts →
      (allowCalls rps burst cb ts).1 = 0) :=
  ⟨allowRequest_starved rps burst cb now hz hshort,
   fun ts h => (allowCalls_starved rps burst ts cb hz h).1⟩

/-- Witness for C10: `rps = 2`, an exhausted bucket, calls 0.4 s apart
are all denied. -/
theorem C10_starved_denial_witness :
    ClientBucket.allowRequest ⟨0, 0⟩ 2 3 400000000 =
      (false, { tokens := 0, lastUpdate := 400000000 }) ∧
    (allowCalls 2 3 ⟨0, 0⟩ [400000000, 800000000]).1 = 0 := by
  have h := C10_starved_denial 2 3 ⟨0, 0⟩ 400000000 (by decide) (by decide)
  exact ⟨h.1, h.2 [400000000, 800000000] (by norm_num [List.chain_cons, nsPerSecond])⟩

/-- Decoding a character produced by the encoder recovers its sextet. -/
lemma charToSextet_sextetToChar : ∀ n < 64, charToSextet (sextetToChar n) = some n := by
  decide

lemma sextetToChar_mem (n : Nat) : sextetToChar n ∈ b64Chars := by
  unfold sextetToChar
  by_cases h : n < b64Chars.length
  · rw [List.getD_eq_get _ _ h]
    exact List.get_mem _ _ _
  · rw [List.getD_eq_default _ _ (by omega)]
    decide

lemma sextetToChar_ne_comma (n : Nat) : sextetToChar n ≠ ',' := by
  intro h
  have hm := sextetToChar_mem n
  rw [h] at hm
  revert hm
  decide

lemma sextetToChar_ne_eq (n : Nat) : sextetToChar n ≠ '=' := by
  intro h
  have hm := sextetToChar_mem n
  rw [h] at hm
  revert hm
  decide

lemma comma_not_mem_encode (bs : List Nat) : ',' ∉ encodeBase64 bs := by
  induction bs using encodeBase64.induct with
  | case1 b1 b2 b3 rest ih =>
    simp only [encodeBase64, List.mem_cons]
    push_neg
    exact ⟨(sextetToChar_ne_comma _).symm, (sextetToChar_ne_comma _).symm,
      (sextetToChar_ne_comma _).symm, (sextetToChar_ne_comma _).symm, ih⟩
  | case2 b1 b2 =>
    simp only [encodeBase64, List.mem_cons]
    push_neg
    refine ⟨(sextetToChar_ne_comma _).symm, (sextetToChar_ne_comma _).symm,
      (sextetToChar_ne_comma _).symm, by decide, by simp⟩
  | case3 b1 =>
    simp only [encodeBase64, List.mem_cons]
    push_neg
    refine ⟨(sextetToChar_ne_comma _).symm, (sextetToChar_ne_comma _).symm,
      by decide, by decide, by simp⟩
  | case4 =>
    simp [encodeBase64]

lemma decodeBase64_encodeBase64 : ∀ bs : List Nat, (∀ b ∈ bs, b < 256) →
    decodeBase64 (encodeBase64 bs) = some bs := by
  intro bs
  induction bs using encodeBase64.induct with
  | case1 b1 b2 b3 rest ih =>
    intro hb
    have h1 : b1 < 256 := hb b1 (by simp)
    have h2 : b2 < 256 := hb b2 (by simp)
    have h3 : b3 < 256 := hb b3 (by simp)
    have hs1 := charToSextet_sextetToChar (b1 / 4) (by omega)
    have hs2 := charToSextet_sextetToChar (b1 % 4 * 16 + b2 / 16) (by omega)
    have hs3 := charToSextet_sextetToChar (b2 % 16 * 4 + b3 / 64) (by omega)
    have hs4 := charToSextet_sextetToChar (b3 % 64) (by omega)
    have hne : sextetToChar (b3 % 64) ≠ '=' := sextetToChar_ne_eq _
    have hrec := ih (fun b hbm => hb b (by simp [hbm]))
    simp only [encodeBase64, decodeBase64, hs1, hs2, hs3, hs4, if_neg hne, hrec]
    dsimp only [Bind.bind, Option.bind]
    simp only [Option.pure_def, Option.some.injEq, List.cons.injEq, if_true]
    repeat' apply And.intro
    all_goals first | trivial | omega
  | case2 b1 b2 =>
    intro hb
    have h1 : b1 < 256 := hb b1 (by simp)
    have h2 : b2 < 256 := hb b2 (by simp)
    have hs1 := charToSextet_sextetToChar (b1 / 4) (by omega)
    have hs2 := charToSextet_sextetToChar (b1 % 4 * 16 + b2 / 16) (by omega)
    have hs3 := charToSextet_sextetToChar (b2 % 16 * 4) (by omega)
    have hne : sextetToChar (b2 % 16 * 4) ≠ '=' := sextetToChar_ne_eq _
    simp only [encodeBase64, decodeBase64, hs1, hs2, hs3, if_pos rfl, if_neg hne]
    dsimp only [Bind.bind, Option.bind]
    simp only [Option.pure_def, Option.some.injEq, List.cons.injEq, if_true]
    repeat' apply And.intro
    all_goals first | trivial | omega
  | case3 b1 =>
    intro hb
    have h1 : b1 < 256 := hb b1 (by simp)
    have hs1 := charToSextet_sextetToChar (b1 / 4) (by omega)
    have hs2 := charToSextet_sextetToChar (b1 % 4 * 16) (by omega)
    simp only [encodeBase64, decodeBase64, hs1, hs2, if_pos rfl]
    dsimp only [Bind.bind, Option.bind]
    simp only [Option.pure_def, Option.some.injEq, List.cons.injEq, if_true]
    repeat' apply And.intro
    all_goals first | trivial | omega
  | case4 =>
    intro _
    rfl

lemma splitOnComma_ne_nil : ∀ s : List Char, splitOnComma s ≠ [] := by
  intro s
  cases s with
  | nil => simp [splitOnComma]
  | cons c rest =>
    by_cases h : c = ','
    · simp [splitOnComma, h]
    · simp only [splitOnComma, if_neg h]
      cases hs : splitOnComma rest with
      | nil => simp
      | cons a l => simp

lemma splitOnComma_no_comma : ∀ s : List Char, ',' ∉ s → splitOnComma s = [s] := by
  intro s
  induction s with
  | nil => intro _; rfl
  | cons c rest ih =>
    intro h
    have hc : ¬ c = ',' := fun he => h (by simp [he])
    have hr : ',' ∉ rest := fun hm => h (by simp [hm])
    simp only [splitOnComma, if_neg hc, ih hr]

lemma splitOnComma_append (M X : List Char) (hM : ',' ∉ M) :
    splitOnComma (M ++ ',' :: X) = M :: splitOnComma X := by
  induction M with
  | nil => simp [splitOnComma]
  | cons c rest ih =>
    have hc : ¬ c = ',' := fun he => hM (by simp [he])
    have hr : ',' ∉ rest := fun hm => hM (by simp [hm])
    simp only [List.cons_append, splitOnComma, if_neg hc, List.append_eq]
    rw [ih hr]

lemma splitOnComma_length : ∀ s : List Char,
    (splitOnComma s).length = s.count ',' + 1 := by
  intro s
  induction s with
  | nil => rfl
  | cons c rest ih =>
    by_cases h : c = ','
    · subst h
      simp [splitOnComma, List.count_cons, ih]
    · simp only [splitOnComma, if_neg h]
      cases hs : splitOnComma rest with
      | nil => exact absurd hs (splitOnComma_ne_nil rest)
      | cons a l =>
        rw [hs] at ih
        simp only [List.length_cons] at ih ⊢
        rw [List.count_cons]
        simp [h, ih]

/-- C8: data-URL decoding is a left inverse of encoding — for every byte
sequence `B` and every comma-free mediatype prefix `M`,
`extractImageData (M ++ "," ++ base64(B))` succeeds and returns exactly
`B`; an input whose comma count is not exactly one is rejected with the
bad-format error, and a one-comma input whose payload does not base64-
decode is rejected with a decode error. -/
theorem C8_data_url_roundtrip (B : List Nat) (M : List Char)
    (hB : ∀ b ∈ B, b < 256) (hM : ',' ∉ M) :
    extractImageData (M ++ ',' :: encodeBase64 B) = .ok B ∧
    (∀ s : List Char, s.count ',' ≠ 1 → extractImageData s = .error .badFormat) ∧
    (∀ M2 X : List Char, ',' ∉ M2 → ',' ∉ X → decodeBase64 X = none →
        extractImageData (M2 ++ ',' :: X) = .error .decodeError) := by
  refine ⟨?_, ?_, ?_⟩
  · have hmem : ',' ∈ M ++ ',' :: encodeBase64 B := by simp
    have hsplit := splitOnComma_append M (encodeBase64 B) hM
    rw [splitOnComma_no_comma (encodeBase64 B) (comma_not_mem_encode B)] at hsplit
    simp only [extractImageData, if_pos hmem, hsplit]
    simp only [List.length_cons, List.length_nil]
    rw [if_neg (by omega)]
    simp [List.getD, decodeBase64_encodeBase64 B hB]
  · intro s hcount
    by_cases hmem : ',' ∈ s
    · have hlen := splitOnComma_length s
      have hc1 : s.count ',' ≠ 0 := by
        intro h0
        exact (List.count_eq_zero.mp h0) hmem
      simp only [extractImageData, if_pos hmem]
      rw [if_pos (by omega)]
    · simp only [extractImageData, if_neg hmem]
  · intro M2 X hM2 hX hdec
    have hmem : ',' ∈ M2 ++ ',' :: X := by simp
    have hsplit := splitOnComma_append M2 X hM2
    rw [splitOnComma_no_comma X hX] at hsplit
    simp only [extractImageData, if_pos hmem, hsplit]
    simp only [List.length_cons, List.length_nil]
    rw [if_neg (by omega)]
    simp [List.getD, hdec]

/-- Witness for C8: mediatype `"d"`, payload bytes `[1,2,3]`; a string
without a comma and a one-comma string with an invalid base64 payload
are rejected. -/
theorem C8_data_url_roundtrip_witness :
    extractImageData (['d'] ++ ',' :: encodeBase64 [1, 2, 3]) = .ok [1, 2, 3] ∧
    extractImageData ("nocomma".toList) = .error .badFormat ∧
    extractImageData (['d'] ++ ',' :: ['%']) = .error .decodeError := by
  have h := C8_data_url_roundtrip [1, 2, 3] ['d'] (by decide) (by decide)
  exact ⟨h.1, h.2.1 _ (by decide), h.2.2 ['d'] ['%'] (by decide) (by decide) (by decide)⟩

end MCV
